import Mathlib

/-!
Verification development for the roleplay-engine-framework server core.

The development shallowly embeds two parts of the repository:

* the `SessionService` cache-synchronization handlers
  (`src/server/domains/session/service.ts`), embedded as pure functions
  from the cache state and the result of the single awaited remote call
  to the new cache state plus an ordered trace of primitive actions
  (cache writes and event emissions); and

* the server context lifecycle (`RPServerContext`) and the base-service
  decorator binding (`RPServerService.bindEventEmitters`).

Emission order versus cache-mutation order inside one handler is kept in
the action trace, because several properties are about exactly that order.
-/

namespace RPF

/-- Account summary carried inside a cached session
(`SessionInfoAccount` of the engine SDK; only the identity matters here). -/
structure SessionInfoAccount where
  id : String
  deriving DecidableEq, Repr

/-- Character summary carried inside a cached session
(`SessionInfoCharacter` of the engine SDK; only the identity matters here). -/
structure SessionInfoCharacter where
  id : String
  deriving DecidableEq, Repr

/-- A cached session, from `RPSession` in
`src/server/domains/session/models/session.ts`: `id` and `tokenHash` are
required, `character`, `account` and `hash` are optional. -/
structure RPSession where
  id : String
  tokenHash : String
  character : Option SessionInfoCharacter := none
  account : Option SessionInfoAccount := none
  hash : Option String := none
  deriving DecidableEq, Repr

/-- Errors thrown by the engine SDK / framework.  `isEngineError` models the
`instanceof EngineError` test, `statusCode` the HTTP status carried by an
`EngineError`. -/
structure RPError where
  message : String := ""
  isEngineError : Bool := false
  statusCode : Nat := 0
  deriving DecidableEq, Repr

/-- Payload of `getActiveSessionInfo` (engine SDK `SessionInfo`): carries every
field of the cached `RPSession` shape, as exercised by the repository's tests. -/
structure SessionInfo where
  id : String
  tokenHash : String
  account : Option SessionInfoAccount := none
  character : Option SessionInfoCharacter := none
  hash : Option String := none
  deriving DecidableEq, Repr

/-- End reasons (`SessionEndReason` of the engine SDK); the service itself
names `ConnectionDropped` and `SessionInitFailed`, any other enum member is
`other`. -/
inductive SessionEndReason
  | connectionDropped
  | sessionInitFailed
  | other (code : String)
  deriving DecidableEq, Repr

/-- The session cache `sessions : Map<SessionId, RPSession>`, embedded as an
insertion-ordered association list (JS `Map` iteration order). -/
abbrev SessionCache := List (String × RPSession)

/-- `sessions.get(id)` -/
def cacheGet (cache : SessionCache) (id : String) : Option RPSession :=
  (cache.find? (fun p => p.1 == id)).map Prod.snd

/-- `sessions.set(id, s)` — JS `Map.set` keeps the position of an existing key
and appends a fresh key at the end. -/
def cacheSet (cache : SessionCache) (id : String) (s : RPSession) : SessionCache :=
  if (cache.find? (fun p => p.1 == id)).isSome then
    cache.map (fun p => if p.1 == id then (id, s) else p)
  else
    cache ++ [(id, s)]

/-- The mapping part of `sessions.delete(id)`. -/
def cacheDelete (cache : SessionCache) (id : String) : SessionCache :=
  cache.filter (fun p => !(p.1 == id))

/-- `sessions.delete(id)` with its Boolean result (JS `Map.delete` reports
whether an entry was actually removed). -/
def cacheDeleteB (cache : SessionCache) (id : String) : SessionCache × Bool :=
  (cacheDelete cache id, (cache.find? (fun p => p.1 == id)).isSome)

/-- The domain events `SessionService` emits on the event bus, with the payload
fields the service actually passes (absent payload properties are `none`). -/
inductive EmittedEvent
  | sessionStarted (sessionId sessionToken : String)
  | sessionFinished (sessionId : String) (accountId characterId : Option String)
      (endReason : SessionEndReason) (endReasonText : Option String)
  | sessionAuthorized (sessionId : String) (account : SessionInfoAccount)
  | sessionCharacterLinked (sessionId : String) (account : Option SessionInfoAccount)
      (character : SessionInfoCharacter)
  | sessionUpdated (sessionId : String) (account : Option SessionInfoAccount)
      (character : Option SessionInfoCharacter)
  deriving DecidableEq, Repr

/-- One primitive effect of a handler, in program order: an event-bus emission
or a mutation of the session cache. -/
inductive Action
  | emit (e : EmittedEvent)
  | setEntry (id : String) (s : RPSession)
  | deleteEntry (id : String)
  deriving DecidableEq, Repr

/-- The events contained in an action trace, in order. -/
def emittedOf (acts : List Action) : List EmittedEvent :=
  acts.filterMap (fun a =>
    match a with
    | Action.emit e => some e
    | _ => none)

/-- `deleteBeforeFinishEmit id acts seen = true` iff every
`sessionFinished` emission for `id` in `acts` comes strictly after a
`deleteEntry id` action (`seen` records whether such a delete already
occurred).  This is the "removed from the cache before the finished event is
emitted" property of a handler's trace. -/
def deleteBeforeFinishEmit (id : String) : List Action → Bool → Bool
  | [], _ => true
  | a :: rest, seen =>
    match a with
    | Action.deleteEntry j => deleteBeforeFinishEmit id rest (seen || (j == id))
    | Action.emit (EmittedEvent.sessionFinished sid _ _ _ _) =>
        (!(sid == id) || seen) && deleteBeforeFinishEmit id rest seen
    | _ => deleteBeforeFinishEmit id rest seen

/-- The session produced by the spread
`{ ...(this.sessions.get(sessionId) ?? { id: sessionId }), ...sessionInfo }`:
since `SessionInfo` carries every field of the cached shape, each field of the
previous entry is overridden by the fetched value. -/
def sessionOfInfo (info : SessionInfo) : RPSession :=
  { id := info.id
    tokenHash := info.tokenHash
    character := info.character
    account := info.account
    hash := info.hash }

/-- `SessionService.refreshSession` (service.ts lines 291-312).  The single
awaited call `getActiveSessionInfo(sessionId)` is passed in as its result
`fetch`.  Returns the new cache, the trace of actions in program order, and
the handler's return value.  Note the order in the `EngineError` 404 branch:
the source emits `sessionFinished` first and deletes the cache entry after. -/
def refreshSession (cache : SessionCache) (sessionId : String)
    (fetch : Except RPError SessionInfo) :
    SessionCache × List Action × Option RPSession :=
  if !(cacheGet cache sessionId).isSome then (cache, [], none)
  else
    match fetch with
    | Except.ok info =>
        let merged := sessionOfInfo info
        let c2 := cacheSet cache sessionId merged
        (c2, [Action.setEntry sessionId merged], cacheGet c2 sessionId)
    | Except.error e =>
        if e.isEngineError && e.statusCode == 404 then
          (cacheDelete cache sessionId,
           [Action.emit (EmittedEvent.sessionFinished sessionId none none
              SessionEndReason.connectionDropped none),
            Action.deleteEntry sessionId],
           none)
        else (cache, [], none)

/-- `playerConnecting` payload (`RPPlayerConnecting`). -/
structure RPPlayerConnecting where
  sessionId : String
  ipAddress : String
  deriving DecidableEq, Repr

/-- `socketSessionFinished` payload, with the fields the handler reads. -/
structure SocketSessionFinished where
  id : String
  accountId : Option String := none
  characterId : Option String := none
  endReason : SessionEndReason
  endReasonText : Option String := none
  deriving DecidableEq, Repr

/-- `socketSessionUpdated` payload fields read by the handler. -/
structure SocketSessionUpdated where
  id : String
  hash : String
  deriving DecidableEq, Repr

/-- `socketSessionAuthorized` payload fields read by the handler. -/
structure SocketSessionAuthorized where
  id : String
  deriving DecidableEq, Repr

/-- `socketSessionCharacterLinked` payload fields read by the handler. -/
structure SocketSessionCharacterLinked where
  id : String
  deriving DecidableEq, Repr

/-- `SessionService.onPlayerConnecting` (service.ts lines 202-215).
`tokenHashOf` abstracts `generateSessionTokenHash` (an HMAC whose value no
property depends on); `startRes` is the result of the awaited
`startSession` call, whose rejection is the only throw the `try` can see.
The handler's `catch` turns any rejection into a `sessionFinished` emission,
so the embedding returns `Except.ok` in both branches. -/
def onPlayerConnecting (tokenHashOf : String → String → String)
    (cache : SessionCache) (p : RPPlayerConnecting)
    (startRes : Except RPError String) :
    Except RPError (SessionCache × List Action) :=
  match startRes with
  | Except.ok token =>
      let entry : RPSession := { id := p.sessionId, tokenHash := tokenHashOf p.sessionId token }
      Except.ok (cacheSet cache p.sessionId entry,
        [Action.setEntry p.sessionId entry,
         Action.emit (EmittedEvent.sessionStarted p.sessionId token)])
  | Except.error _ =>
      Except.ok (cache,
        [Action.emit (EmittedEvent.sessionFinished p.sessionId none none
           SessionEndReason.sessionInitFailed none)])

/-- `SessionService.onSocketSessionFinished` (service.ts lines 231-244):
`if (!this.sessions.delete(payload.id)) return;` then emit `sessionFinished`
with the payload's account/character/end-reason fields. -/
def onSocketSessionFinished (cache : SessionCache) (p : SocketSessionFinished) :
    SessionCache × List Action :=
  let del := cacheDeleteB cache p.id
  if !del.2 then (cache, [])
  else
    (del.1,
     [Action.deleteEntry p.id,
      Action.emit (EmittedEvent.sessionFinished p.id p.accountId p.characterId
        p.endReason p.endReasonText)])

/-- `SessionService.onSocketSessionUpdated` (service.ts lines 273-289):
skip when the pushed hash equals the cached hash, otherwise refresh and emit
`sessionUpdated` only when the refresh returned a session. -/
def onSocketSessionUpdated (cache : SessionCache) (p : SocketSessionUpdated)
    (fetch : Except RPError SessionInfo) : SessionCache × List Action :=
  if some p.hash == (cacheGet cache p.id).bind RPSession.hash then (cache, [])
  else
    let r := refreshSession cache p.id fetch
    match r.2.2 with
    | none => (r.1, r.2.1)
    | some s =>
        (r.1, r.2.1 ++ [Action.emit (EmittedEvent.sessionUpdated s.id s.account s.character)])

/-- `SessionService.onSocketSessionAuthorized` (service.ts lines 246-257):
refresh, then emit `sessionAuthorized` only when the refreshed session has an
account. -/
def onSocketSessionAuthorized (cache : SessionCache) (p : SocketSessionAuthorized)
    (fetch : Except RPError SessionInfo) : SessionCache × List Action :=
  let r := refreshSession cache p.id fetch
  match r.2.2 with
  | none => (r.1, r.2.1)
  | some s =>
      match s.account with
      | none => (r.1, r.2.1)
      | some acc =>
          (r.1, r.2.1 ++ [Action.emit (EmittedEvent.sessionAuthorized s.id acc)])

/-- `SessionService.onSocketSessionCharacterLinked` (service.ts lines 259-271):
refresh, then emit `sessionCharacterLinked` only when the refreshed session has
a character (the account is passed through as-is, `session.account!`). -/
def onSocketSessionCharacterLinked (cache : SessionCache) (p : SocketSessionCharacterLinked)
    (fetch : Except RPError SessionInfo) : SessionCache × List Action :=
  let r := refreshSession cache p.id fetch
  match r.2.2 with
  | none => (r.1, r.2.1)
  | some s =>
      match s.character with
      | none => (r.1, r.2.1)
      | some ch =>
          (r.1, r.2.1 ++ [Action.emit (EmittedEvent.sessionCharacterLinked s.id s.account ch)])

/-!
## Server context lifecycle

Modelled from the spec: the repository ships only the test file
`src/server/core/context.test.ts` for `RPServerContext`; `context.ts` itself
is missing from the sources, so the definitions below follow the spec's §3
and §4.3 (with the error messages the repository's tests assert).  A service
type is identified by an interned string tag (`name`), per the spec's design
note on constructor-identity keys; a service's `init`/`dispose` behaviour is
its given `Except` result.
-/

/-- A registered service, as the context sees it: its type tag and the
outcomes of its `init` and `dispose` hooks. -/
structure ServiceSpec where
  name : String
  initResult : Except RPError Unit := Except.ok ()
  disposeResult : Except RPError Unit := Except.ok ()

/-- Modelled from the spec: the context's lifecycle-relevant state — the
insertion-ordered service registry and the private `initialized` flag
(called `initDone` here). -/
structure ContextState where
  services : List ServiceSpec := []
  initDone : Bool := false

/-- A context as constructed: no services, not yet initialized. -/
def emptyContext : ContextState := {}

/-- Lifecycle observations, in program order: the start and the completion of
each service's `init`/`dispose` hook, and the logger's error entry recorded
when a `dispose` rejects. -/
inductive LifecycleEvent
  | initStart (serviceName : String)
  | initEnd (serviceName : String)
  | disposeStart (serviceName : String)
  | disposeEnd (serviceName : String)
  | logError (serviceName : String)
  deriving DecidableEq, Repr

/-- Modelled from the spec: `addService` fails with a configuration error once
the context is initialized; before that it registers the instance, replacing a
prior registration of the same type in place (JS `Map.set`) and appending a
new type at the end. -/
def ContextState.addService (st : ContextState) (s : ServiceSpec) :
    Except RPError ContextState :=
  if st.initDone then
    Except.error { message := "Cannot add service after server start." }
  else if (st.services.find? (fun t => t.name == s.name)).isSome then
    Except.ok { st with services := st.services.map (fun t => if t.name == s.name then s else t) }
  else
    Except.ok { st with services := st.services ++ [s] }

/-- Modelled from the spec: `getService` returns the registered singleton and
fails, naming the type, when absent. -/
def ContextState.getService (st : ContextState) (name : String) :
    Except RPError ServiceSpec :=
  match st.services.find? (fun t => t.name == name) with
  | some s => Except.ok s
  | none => Except.error { message := "Service " ++ name ++ " not registered in the context." }

/-- Sequential initialization of the registered services in registration
order: each service's `init` is awaited to completion (`initEnd`) before the
next one starts; the first rejection stops the loop and is reported. -/
def runInits : List ServiceSpec → List LifecycleEvent × Option RPError
  | [] => ([], none)
  | s :: rest =>
    match s.initResult with
    | Except.ok _ =>
        let r := runInits rest
        (LifecycleEvent.initStart s.name :: LifecycleEvent.initEnd s.name :: r.1, r.2)
    | Except.error e => ([LifecycleEvent.initStart s.name], some e)

/-- Modelled from the spec: context `init()` — guarded at entry by the
`initialized` flag so a second call runs no service init; otherwise it runs
the services sequentially in registration order, sets the flag
unconditionally (even when a service's init rejected) and propagates the
rejection to its caller. -/
def ContextState.init (st : ContextState) :
    ContextState × List LifecycleEvent × Except RPError Unit :=
  if st.initDone then (st, [], Except.ok ())
  else
    let r := runInits st.services
    ({ st with initDone := true }, r.1,
      match r.2 with
      | none => Except.ok ()
      | some e => Except.error e)

/-- Sequential disposal of a list of services: a rejecting `dispose` is caught
and logged with the failing service's name, and the loop continues. -/
def runDisposes : List ServiceSpec → List LifecycleEvent
  | [] => []
  | s :: rest =>
    match s.disposeResult with
    | Except.ok _ =>
        LifecycleEvent.disposeStart s.name :: LifecycleEvent.disposeEnd s.name :: runDisposes rest
    | Except.error _ =>
        LifecycleEvent.disposeStart s.name :: LifecycleEvent.logError s.name :: runDisposes rest

/-- Modelled from the spec: context `dispose()` — a no-op when the context is
not initialized; otherwise it disposes the services in reverse registration
order with per-service error isolation and finally clears the flag.  It never
rejects, so it returns a plain pair. -/
def ContextState.dispose (st : ContextState) : ContextState × List LifecycleEvent :=
  if st.initDone then
    ({ st with initDone := false }, runDisposes st.services.reverse)
  else (st, [])

/-- The `initResult` error of the first service (in registration order) whose
init rejects, if any. -/
def firstInitError : List ServiceSpec → Option RPError
  | [] => none
  | s :: rest =>
    match s.initResult with
    | Except.ok _ => firstInitError rest
    | Except.error e => some e

/-- The service names of the `disposeStart` observations of a trace,
in order. -/
def disposeStartsOf (tr : List LifecycleEvent) : List String :=
  tr.filterMap (fun ev =>
    match ev with
    | LifecycleEvent.disposeStart n => some n
    | _ => none)

/-!
## Base-service decorator binding

`RPServerService.bindEventEmitters` (`src/server/core/server-service.ts`,
together with `getEventHandlers` in `src/server/core/events/decorators.ts`):
the decorator metadata is an ordered list of `{ method, event }` records; the
constructor walks it, skips records whose `method` is not a callable property
of the instance, subscribes the remaining ones on the event bus in order and
assigns them into the `eventHandlers` object (a later record for the same
event name overwrites the object entry, while both stay subscribed).
-/

/-- One record of the `@OnServer` metadata list: a method name and the event
it is declared for. -/
structure HandlerMeta where
  method : String
  event : String
  deriving DecidableEq, Repr

/-- JS object property assignment `obj[k] = v` on a string-keyed record. -/
def objSet (xs : List (String × String)) (k v : String) : List (String × String) :=
  if (xs.find? (fun q => q.1 == k)).isSome then
    xs.map (fun q => if q.1 == k then (k, v) else q)
  else
    xs ++ [(k, v)]

/-- The `for (const { method, event } of handlers)` loop of
`bindEventEmitters`: `regs` accumulates the event-bus subscriptions
`(event, method)` in order, `hmap` the `eventHandlers` object. -/
def bindLoop (metadata : List HandlerMeta) (callable : String → Bool)
    (regs : List (String × String)) (hmap : List (String × String)) :
    List (String × String) × List (String × String) :=
  match metadata with
  | [] => (regs, hmap)
  | m :: rest =>
      if callable m.method then
        bindLoop rest callable (regs ++ [(m.event, m.method)]) (objSet hmap m.event m.method)
      else
        bindLoop rest callable regs hmap

/-- `RPServerService.bindEventEmitters` (server-service.ts lines 131-145):
`callable` tells whether `typeof this[method] === 'function'`.  Returns the
bus subscriptions made and the built `eventHandlers` map.  It is a total
function: a metadata record whose method is absent is skipped, never an
error. -/
def bindEventEmitters (metadata : List HandlerMeta) (callable : String → Bool) :
    List (String × String) × List (String × String) :=
  bindLoop metadata callable [] []

/-!
## Theorems
-/

-- The 404 branch of `refreshSession`, shared by several claims below.
theorem refreshSession_404 (cache : SessionCache) (sid : String) (e : RPError)
    (hmem : (cacheGet cache sid).isSome = true)
    (heng : e.isEngineError = true) (hst : e.statusCode = 404) :
    refreshSession cache sid (Except.error e) =
      (cacheDelete cache sid,
       [Action.emit (EmittedEvent.sessionFinished sid none none
          SessionEndReason.connectionDropped none),
        Action.deleteEntry sid], none) := by
  have h404 : (e.isEngineError && e.statusCode == 404) = true := by
    simp [heng, hst]
  simp [refreshSession, hmem, h404]

-- The guard in `refreshSession` makes a cache miss a no-op.
theorem refreshSession_miss (cache : SessionCache) (sid : String)
    (habs : cacheGet cache sid = none) (fetch : Except RPError SessionInfo) :
    refreshSession cache sid fetch = (cache, [], none) := by
  simp [refreshSession, habs]

/-- **C9.** For every `playerConnecting` event whose remote `startSession` call
rejects, `onPlayerConnecting` adds no entry to the session cache, emits no
`sessionStarted` event, and instead emits exactly one `sessionFinished` event
for that session identifier with end reason `SessionInitFailed`; the handler
returns normally (`Except.ok`), so the rejection is not propagated. -/
theorem claim_C9_start_failure_finishes (tokenHashOf : String → String → String)
    (cache : SessionCache) (p : RPPlayerConnecting) (e : RPError) :
    onPlayerConnecting tokenHashOf cache p (Except.error e) =
      Except.ok (cache,
        [Action.emit (EmittedEvent.sessionFinished p.sessionId none none
           SessionEndReason.sessionInitFailed none)]) := rfl

/-- **C10.** For every `socketSessionFinished` event whose identifier is not in
the session cache, the handler emits nothing and leaves the cache unchanged;
conversely, whenever the handler produces any action at all, the identifier
was cached (the delete succeeded). -/
theorem claim_C10_finished_unknown_id (cache : SessionCache) (p : SocketSessionFinished) :
    (cacheGet cache p.id = none → onSocketSessionFinished cache p = (cache, [])) ∧
    ((onSocketSessionFinished cache p).2 ≠ [] → (cacheGet cache p.id).isSome = true) := by
  cases hf : cache.find? (fun q => q.1 == p.id) with
  | none =>
      constructor
      · intro _
        simp [onSocketSessionFinished, cacheDeleteB, hf]
      · intro hne
        exfalso
        apply hne
        simp [onSocketSessionFinished, cacheDeleteB, hf]
  | some q =>
      constructor
      · intro h
        exfalso
        simp [cacheGet, hf] at h
      · intro _
        simp [cacheGet, hf]

theorem claim_C10_witness :
    onSocketSessionFinished ([] : SessionCache)
      { id := "s1", endReason := SessionEndReason.connectionDropped } = ([], []) :=
  (claim_C10_finished_unknown_id [] _).1 rfl

/-- **C6.** For every push-update event (`socketSessionUpdated`,
`socketSessionAuthorized`, `socketSessionCharacterLinked`) whose identifier is
not present in the session cache, handling the event leaves the cache exactly
unchanged and emits no derived domain event (the action trace is empty). -/
theorem claim_C6_push_unknown_id_noop (cache : SessionCache) (sid : String)
    (habs : cacheGet cache sid = none) (fetch : Except RPError SessionInfo) :
    (∀ p : SocketSessionUpdated, p.id = sid →
       onSocketSessionUpdated cache p fetch = (cache, [])) ∧
    (∀ p : SocketSessionAuthorized, p.id = sid →
       onSocketSessionAuthorized cache p fetch = (cache, [])) ∧
    (∀ p : SocketSessionCharacterLinked, p.id = sid →
       onSocketSessionCharacterLinked cache p fetch = (cache, [])) := by
  have hr : refreshSession cache sid fetch = (cache, [], none) :=
    refreshSession_miss cache sid habs fetch
  refine ⟨?_, ?_, ?_⟩
  · intro p hp
    have hg : (some p.hash == (cacheGet cache p.id).bind RPSession.hash) = false := by
      rw [hp, habs]
      rfl
    simp [onSocketSessionUpdated, hg, hp, hr]
  · intro p hp
    simp [onSocketSessionAuthorized, hp, hr]
  · intro p hp
    simp [onSocketSessionCharacterLinked, hp, hr]

theorem claim_C6_witness :
    onSocketSessionUpdated ([] : SessionCache) { id := "s1", hash := "h" }
        (Except.ok { id := "s1", tokenHash := "t" }) = ([], []) ∧
    onSocketSessionAuthorized ([] : SessionCache) { id := "s1" }
        (Except.ok { id := "s1", tokenHash := "t" }) = ([], []) ∧
    onSocketSessionCharacterLinked ([] : SessionCache) { id := "s1" }
        (Except.ok { id := "s1", tokenHash := "t" }) = ([], []) :=
  ⟨(claim_C6_push_unknown_id_noop [] "s1" rfl _).1 _ rfl,
   (claim_C6_push_unknown_id_noop [] "s1" rfl _).2.1 _ rfl,
   (claim_C6_push_unknown_id_noop [] "s1" rfl _).2.2 _ rfl⟩

/-- **C5.** For every cached session identifier whose authoritative refresh
fails with an `EngineError` of status 404, the service removes the cached
entry and emits a `sessionFinished` event with the fixed generic end reason
`ConnectionDropped`; each push-update handler's whole action trace on that
trigger consists of exactly that emission plus the cache delete, so no
`sessionUpdated`/`sessionAuthorized`/`sessionCharacterLinked` event is
emitted. -/
theorem claim_C5_refresh_404_finishes (cache : SessionCache) (sid : String) (e : RPError)
    (hmem : (cacheGet cache sid).isSome = true)
    (heng : e.isEngineError = true) (hst : e.statusCode = 404) :
    refreshSession cache sid (Except.error e) =
      (cacheDelete cache sid,
       [Action.emit (EmittedEvent.sessionFinished sid none none
          SessionEndReason.connectionDropped none),
        Action.deleteEntry sid], none) ∧
    (∀ p : SocketSessionUpdated, p.id = sid →
       (some p.hash == (cacheGet cache sid).bind RPSession.hash) = false →
       onSocketSessionUpdated cache p (Except.error e) =
         (cacheDelete cache sid,
          [Action.emit (EmittedEvent.sessionFinished sid none none
             SessionEndReason.connectionDropped none),
           Action.deleteEntry sid])) ∧
    (∀ p : SocketSessionAuthorized, p.id = sid →
       onSocketSessionAuthorized cache p (Except.error e) =
         (cacheDelete cache sid,
          [Action.emit (EmittedEvent.sessionFinished sid none none
             SessionEndReason.connectionDropped none),
           Action.deleteEntry sid])) ∧
    (∀ p : SocketSessionCharacterLinked, p.id = sid →
       onSocketSessionCharacterLinked cache p (Except.error e) =
         (cacheDelete cache sid,
          [Action.emit (EmittedEvent.sessionFinished sid none none
             SessionEndReason.connectionDropped none),
           Action.deleteEntry sid])) := by
  have hr := refreshSession_404 cache sid e hmem heng hst
  refine ⟨hr, ?_, ?_, ?_⟩
  · intro p hp hg
    simp [onSocketSessionUpdated, hp, hg, hr]
  · intro p hp
    simp [onSocketSessionAuthorized, hp, hr]
  · intro p hp
    simp [onSocketSessionCharacterLinked, hp, hr]

theorem claim_C5_witness :
    onSocketSessionAuthorized [("s1", { id := "s1", tokenHash := "t" })] { id := "s1" }
        (Except.error { message := "nf", isEngineError := true, statusCode := 404 }) =
      (cacheDelete [("s1", { id := "s1", tokenHash := "t" })] "s1",
       [Action.emit (EmittedEvent.sessionFinished "s1" none none
          SessionEndReason.connectionDropped none),
        Action.deleteEntry "s1"]) :=
  (claim_C5_refresh_404_finishes [("s1", { id := "s1", tokenHash := "t" })] "s1"
    { message := "nf", isEngineError := true, statusCode := 404 }
    (by decide) rfl rfl).2.2.1 _ rfl

/-- **C1 (amended).** The `socketSessionFinished` handler does remove the
cached entry before emitting the derived `sessionFinished` event; but on the
implicit-termination path — a refresh reporting `EngineError` 404 — the
source emits `sessionFinished` first and deletes the cache entry after, so on
that terminal trigger a handler invoked synchronously by the emission can
still observe the finished session in the cache. -/
theorem claim_C1_amended_finish_order (cache : SessionCache) :
    (∀ p : SocketSessionFinished,
        deleteBeforeFinishEmit p.id (onSocketSessionFinished cache p).2 false = true) ∧
    (∀ sid : String, ∀ e : RPError,
        e.isEngineError = true → e.statusCode = 404 →
        (cacheGet cache sid).isSome = true →
        (refreshSession cache sid (Except.error e)).2.1 =
          [Action.emit (EmittedEvent.sessionFinished sid none none
             SessionEndReason.connectionDropped none),
           Action.deleteEntry sid]) := by
  constructor
  · intro p
    by_cases hf : (cache.find? (fun q => q.1 == p.id)).isSome = true
    · simp [onSocketSessionFinished, cacheDeleteB, hf, deleteBeforeFinishEmit]
    · simp only [Bool.not_eq_true] at hf
      simp [onSocketSessionFinished, cacheDeleteB, hf, deleteBeforeFinishEmit]
  · intro sid e heng hst hmem
    rw [refreshSession_404 cache sid e hmem heng hst]

/-- The claim as frozen — "for every terminal trigger the cache entry is
removed before the derived `sessionFinished` event is emitted" — is false on
the refresh-not-found path: at this concrete input the trace emits first and
deletes after. -/
theorem claim_C1_counterexample :
    deleteBeforeFinishEmit "s1"
      ((refreshSession [("s1", { id := "s1", tokenHash := "t" })] "s1"
        (Except.error { message := "nf", isEngineError := true, statusCode := 404 })).2.1)
      false = false := by decide

theorem claim_C1_witness :
    deleteBeforeFinishEmit "s1"
      (onSocketSessionFinished [("s1", { id := "s1", tokenHash := "t" })]
        { id := "s1", endReason := SessionEndReason.connectionDropped }).2 false = true ∧
    (refreshSession [("s2", { id := "s2", tokenHash := "u" })] "s2"
      (Except.error { message := "nf", isEngineError := true, statusCode := 404 })).2.1 =
      [Action.emit (EmittedEvent.sessionFinished "s2" none none
         SessionEndReason.connectionDropped none),
       Action.deleteEntry "s2"] :=
  ⟨(claim_C1_amended_finish_order [("s1", { id := "s1", tokenHash := "t" })]).1
     { id := "s1", endReason := SessionEndReason.connectionDropped },
   (claim_C1_amended_finish_order [("s2", { id := "s2", tokenHash := "u" })]).2 "s2"
     { message := "nf", isEngineError := true, statusCode := 404 } rfl rfl (by decide)⟩

-- `init()` on an already-flagged context is a no-op.
theorem init_noop_of_flag (st : ContextState) (h : st.initDone = true) :
    st.init = (st, [], Except.ok ()) := by
  simp [ContextState.init, h]

-- `addService` on a flagged context is the configuration error.
theorem addService_fails_of_flag (st : ContextState) (s : ServiceSpec)
    (h : st.initDone = true) :
    st.addService s = Except.error { message := "Cannot add service after server start." } := by
  simp [ContextState.addService, h]

-- `init()` always leaves the flag set, whatever its outcome.
theorem initDone_after_init (st : ContextState) : (st.init).1.initDone = true := by
  by_cases h : st.initDone = true
  · simp [ContextState.init, h]
  · simp [ContextState.init, h]

-- `init()`'s propagated error is the first rejecting service's error.
theorem runInits_snd (l : List ServiceSpec) : (runInits l).2 = firstInitError l := by
  induction l with
  | nil => rfl
  | cons s rest ih =>
      cases h : s.initResult with
      | ok u => simp [runInits, firstInitError, h, ih]
      | error e => simp [runInits, firstInitError, h]

/-- **C2.** For every uninitialized context holding a service whose `init`
rejects, `init()` rejects with that same (first) error, yet the context is
flagged initialized afterwards — so a later `addService` fails and a later
`init()` is a no-op that re-runs no service init. -/
theorem claim_C2_init_error_still_marked (st : ContextState) (e : RPError)
    (h0 : st.initDone = false) (h : firstInitError st.services = some e) :
    (st.init).2.2 = Except.error e ∧
    (st.init).1.initDone = true ∧
    (∀ s : ServiceSpec, ∃ err : RPError, ((st.init).1).addService s = Except.error err) ∧
    ((st.init).1).init = ((st.init).1, [], Except.ok ()) := by
  have hflag : (st.init).1.initDone = true := initDone_after_init st
  refine ⟨?_, hflag, ?_, init_noop_of_flag _ hflag⟩
  · simp [ContextState.init, h0, runInits_snd, h]
  · intro s
    exact ⟨{ message := "Cannot add service after server start." },
      addService_fails_of_flag _ s hflag⟩

theorem claim_C2_witness :
    (ContextState.init
        { services := [{ name := "Bad", initResult := Except.error { message := "Init error" } }],
          initDone := false }).2.2 =
      Except.error { message := "Init error" } ∧
    (ContextState.init
        { services := [{ name := "Bad", initResult := Except.error { message := "Init error" } }],
          initDone := false }).1.initDone = true ∧
    (∀ s : ServiceSpec, ∃ err : RPError,
      ((ContextState.init
          { services := [{ name := "Bad", initResult := Except.error { message := "Init error" } }],
            initDone := false }).1).addService s = Except.error err) ∧
    ((ContextState.init
        { services := [{ name := "Bad", initResult := Except.error { message := "Init error" } }],
          initDone := false }).1).init =
      ((ContextState.init
          { services := [{ name := "Bad", initResult := Except.error { message := "Init error" } }],
            initDone := false }).1, [], Except.ok ()) :=
  claim_C2_init_error_still_marked _ _ rfl rfl

/-- **C4.** Registering `A` then `B` on a fresh context and calling `init()`
produces the trace `initStart A, initEnd A, …` followed by `B`'s init trace:
`A.init` is awaited to completion before `B.init` begins.  A second `init()`
call runs no service init (empty trace) and leaves the state unchanged. -/
theorem claim_C4_sequential_init (A B : ServiceSpec)
    (hname : (A.name == B.name) = false) (hA : A.initResult = Except.ok ()) :
    ∃ st1 st2 : ContextState,
      emptyContext.addService A = Except.ok st1 ∧
      st1.addService B = Except.ok st2 ∧
      (st2.init).2.1 =
        LifecycleEvent.initStart A.name :: LifecycleEvent.initEnd A.name :: (runInits [B]).1 ∧
      ((st2.init).1).init = ((st2.init).1, [], Except.ok ()) := by
  refine ⟨{ services := [A] }, { services := [A, B] }, ?_, ?_, ?_,
    init_noop_of_flag _ (initDone_after_init _)⟩
  · simp [ContextState.addService, emptyContext]
  · simp [ContextState.addService, hname]
  · simp [ContextState.init, runInits, hA]

theorem claim_C4_witness :
    ∃ st1 st2 : ContextState,
      emptyContext.addService { name := "A" } = Except.ok st1 ∧
      st1.addService { name := "B" } = Except.ok st2 ∧
      (st2.init).2.1 =
        LifecycleEvent.initStart "A" :: LifecycleEvent.initEnd "A" ::
          (runInits [{ name := "B" }]).1 ∧
      ((st2.init).1).init = ((st2.init).1, [], Except.ok ()) :=
  claim_C4_sequential_init { name := "A" } { name := "B" } (by decide) rfl

-- `dispose()` visits exactly the listed services, in list order.
theorem disposeStartsOf_runDisposes (l : List ServiceSpec) :
    disposeStartsOf (runDisposes l) = l.map ServiceSpec.name := by
  induction l with
  | nil => rfl
  | cons s rest ih =>
      cases h : s.disposeResult with
      | ok u => simpa [runDisposes, disposeStartsOf, h] using ih
      | error e => simpa [runDisposes, disposeStartsOf, h] using ih

-- A rejecting dispose is recorded in the trace via the logger.
theorem logError_mem_runDisposes (l : List ServiceSpec) (s : ServiceSpec) (e : RPError)
    (hs : s ∈ l) (he : s.disposeResult = Except.error e) :
    LifecycleEvent.logError s.name ∈ runDisposes l := by
  induction l with
  | nil => cases hs
  | cons t rest ih =>
      cases hs with
      | head => simp [runDisposes, he]
      | tail _ hmem =>
          cases h : t.disposeResult with
          | ok u => simp [runDisposes, h, ih hmem]
          | error e2 => simp [runDisposes, h, ih hmem]

/-- **C3.** For every initialized context, `dispose()` visits every registered
service in reverse registration order, records a logger error entry naming
each service whose dispose rejects (without aborting the loop or rethrowing —
it always returns normally), and finally clears the initialized flag; on a
context that was never initialized it invokes no service dispose at all. -/
theorem claim_C3_dispose_reverse_isolated (st : ContextState) :
    (st.initDone = true →
       disposeStartsOf (st.dispose).2 = (st.services.map ServiceSpec.name).reverse ∧
       (∀ s ∈ st.services, ∀ e : RPError, s.disposeResult = Except.error e →
          LifecycleEvent.logError s.name ∈ (st.dispose).2) ∧
       (st.dispose).1.initDone = false) ∧
    (st.initDone = false → (st.dispose).2 = [] ∧ (st.dispose).1 = st) := by
  constructor
  · intro h1
    refine ⟨?_, ?_, ?_⟩
    · simp [ContextState.dispose, h1, disposeStartsOf_runDisposes, List.map_reverse]
    · intro s hs e he
      simp only [ContextState.dispose, h1, if_true]
      exact logError_mem_runDisposes _ s e (List.mem_reverse.mpr hs) he
    · simp [ContextState.dispose, h1]
  · intro h0
    simp [ContextState.dispose, h0]

theorem claim_C3_witness :
    (disposeStartsOf
        (ContextState.dispose
          { services := [{ name := "BadDispose",
                           disposeResult := Except.error { message := "Dispose error" } },
                         { name := "Good" }],
            initDone := true }).2 =
      (([{ name := "BadDispose",
           disposeResult := Except.error { message := "Dispose error" } },
         { name := "Good" }] : List ServiceSpec).map ServiceSpec.name).reverse) ∧
    (LifecycleEvent.logError "BadDispose" ∈
      (ContextState.dispose
        { services := [{ name := "BadDispose",
                         disposeResult := Except.error { message := "Dispose error" } },
                       { name := "Good" }],
          initDone := true }).2) ∧
    ((ContextState.dispose
        { services := [{ name := "BadDispose",
                         disposeResult := Except.error { message := "Dispose error" } },
                       { name := "Good" }],
          initDone := true }).1.initDone = false) ∧
    ((ContextState.dispose { services := [{ name := "Good" }], initDone := false }).2 = [] ∧
     (ContextState.dispose { services := [{ name := "Good" }], initDone := false }).1 =
       { services := [{ name := "Good" }], initDone := false }) := by
  have h := claim_C3_dispose_reverse_isolated
    { services := [{ name := "BadDispose",
                     disposeResult := Except.error { message := "Dispose error" } },
                   { name := "Good" }],
      initDone := true }
  have h2 := claim_C3_dispose_reverse_isolated
    { services := [{ name := "Good" }], initDone := false }
  refine ⟨(h.1 rfl).1, ?_, (h.1 rfl).2.2, h2.2 rfl⟩
  exact (h.1 rfl).2.1
    { name := "BadDispose", disposeResult := Except.error { message := "Dispose error" } }
    (by simp) { message := "Dispose error" } rfl

-- Replacing a registered service of the same type keeps it findable, and the
-- lookup returns the replacement.
theorem find?_map_replace (l : List ServiceSpec) (s : ServiceSpec)
    (h : (l.find? (fun t => t.name == s.name)).isSome = true) :
    (l.map (fun t => if t.name == s.name then s else t)).find?
      (fun t => t.name == s.name) = some s := by
  induction l with
  | nil => simp at h
  | cons t rest ih =>
      simp only [List.map_cons]
      by_cases ht : (t.name == s.name) = true
      · rw [if_pos ht]
        exact List.find?_cons_of_pos _ (by simp)
      · have htf : (t.name == s.name) = false := by
          cases hb : (t.name == s.name) with
          | false => rfl
          | true => exact absurd hb ht
        rw [if_neg (by simp [htf])]
        rw [List.find?_cons_of_neg _ (by simp [htf])]
        rw [List.find?_cons_of_neg _ (by simp [htf])] at h
        exact ih h

-- Appending a fresh registration makes it findable when no earlier entry
-- matched.
theorem find?_append_fresh (l : List ServiceSpec) (s : ServiceSpec)
    (h : l.find? (fun t => t.name == s.name) = none) :
    (l ++ [s]).find? (fun t => t.name == s.name) = some s := by
  induction l with
  | nil =>
      simp only [List.nil_append]
      exact List.find?_cons_of_pos _ (by simp)
  | cons t rest ih =>
      simp only [List.cons_append]
      by_cases ht : (t.name == s.name) = true
      · rw [List.find?_cons_of_pos (p := fun (u : ServiceSpec) => u.name == s.name) _ ht] at h
        cases h
      · have htf : (t.name == s.name) = false := by
          cases hb : (t.name == s.name) with
          | false => rfl
          | true => exact absurd hb ht
        rw [List.find?_cons_of_neg _ (by simp [htf])]
        rw [List.find?_cons_of_neg _ (by simp [htf])] at h
        exact ih h

/-- **C7.** For every context and service, `addService` after `init()` has
been invoked always fails synchronously with the configuration error
(whatever init's outcome was, the flag is set); before `init()` the same call
succeeds, the instance is registered (retrievable via `getService`), and the
returned context state is the caller's own context with the registration
applied. -/
theorem claim_C7_addService_gate (st : ContextState) (s : ServiceSpec)
    (h : st.initDone = false) :
    (∃ err : RPError, ((st.init).1).addService s = Except.error err ∧
        err.message = "Cannot add service after server start.") ∧
    (∃ st2 : ContextState, st.addService s = Except.ok st2 ∧
        st2.getService s.name = Except.ok s ∧ st2.initDone = false) := by
  constructor
  · refine ⟨{ message := "Cannot add service after server start." }, ?_, rfl⟩
    have hflag : ((st.init).1).initDone = true := by
      simp [ContextState.init, h]
    simp [ContextState.addService, hflag]
  · by_cases hf : (st.services.find? (fun t => t.name == s.name)).isSome = true
    · refine ⟨{ st with services := st.services.map (fun t => if t.name == s.name then s else t) },
        ?_, ?_, h⟩
      · simp [ContextState.addService, h, hf]
      · simp only [ContextState.getService]
        rw [find?_map_replace st.services s hf]
    · have hnone : st.services.find? (fun t => t.name == s.name) = none := by
        cases hfind : st.services.find? (fun t => t.name == s.name) with
        | none => rfl
        | some q => rw [hfind] at hf; simp at hf
      refine ⟨{ st with services := st.services ++ [s] }, ?_, ?_, h⟩
      · simp [ContextState.addService, h, hnone]
      · simp [ContextState.getService, find?_append_fresh st.services s hnone]

theorem claim_C7_witness :
    (∃ err : RPError,
        ((emptyContext.init).1).addService { name := "S" } = Except.error err ∧
        err.message = "Cannot add service after server start.") ∧
    (∃ st2 : ContextState, emptyContext.addService { name := "S" } = Except.ok st2 ∧
        st2.getService "S" = Except.ok { name := "S" } ∧ st2.initDone = false) :=
  claim_C7_addService_gate emptyContext { name := "S" } rfl

-- The subscriptions made by the binding loop are the callable metadata
-- records, in metadata order.
theorem bindLoop_fst (md : List HandlerMeta) (c : String → Bool)
    (regs hmap : List (String × String)) :
    (bindLoop md c regs hmap).1 =
      regs ++ (md.filter (fun m => c m.method)).map (fun m => (m.event, m.method)) := by
  induction md generalizing regs hmap with
  | nil => simp [bindLoop]
  | cons m rest ih =>
      by_cases hc : c m.method = true
      · simp [bindLoop, hc, ih]
      · simp [bindLoop, hc, ih]

-- `obj[k] = v` leaves the key `k` present.
theorem objSet_keys_mem (xs : List (String × String)) (k v : String) :
    k ∈ (objSet xs k v).map Prod.fst := by
  unfold objSet
  by_cases h : (xs.find? (fun q => q.1 == k)).isSome = true
  · rw [if_pos h]
    obtain ⟨q, hq, hqk⟩ := List.find?_isSome.mp h
    have himg : ((k, v) : String × String) ∈
        xs.map (fun p => if p.1 == k then (k, v) else p) :=
      List.mem_map.mpr ⟨q, hq, by simp [hqk]⟩
    exact List.mem_map_of_mem Prod.fst himg
  · rw [if_neg h]
    simp

-- `obj[k] = v` preserves every key already present.
theorem objSet_keys_sub (xs : List (String × String)) (k v a : String)
    (h : a ∈ xs.map Prod.fst) : a ∈ (objSet xs k v).map Prod.fst := by
  unfold objSet
  by_cases hp : (xs.find? (fun q => q.1 == k)).isSome = true
  · rw [if_pos hp]
    obtain ⟨p, hpmem, hpa⟩ := List.mem_map.mp h
    by_cases hk : (p.1 == k) = true
    · have hak : a = k := by
        rw [← hpa]
        exact eq_of_beq hk
      subst hak
      obtain ⟨q, hq, hqk⟩ := List.find?_isSome.mp hp
      have himg : ((a, v) : String × String) ∈
          xs.map (fun r => if r.1 == a then (a, v) else r) :=
        List.mem_map.mpr ⟨q, hq, by simp [hqk]⟩
      exact List.mem_map_of_mem Prod.fst himg
    · have himg : p ∈ xs.map (fun r => if r.1 == k then (k, v) else r) :=
        List.mem_map.mpr ⟨p, hpmem, by simp [hk]⟩
      rw [← hpa]
      exact List.mem_map_of_mem Prod.fst himg
  · rw [if_neg hp, List.map_append]
    exact List.mem_append_left _ h

-- Keys already in the handler map survive the rest of the binding loop.
theorem bindLoop_keys_sub (md : List HandlerMeta) (c : String → Bool)
    (regs hmap : List (String × String)) (a : String)
    (h : a ∈ hmap.map Prod.fst) :
    a ∈ ((bindLoop md c regs hmap).2).map Prod.fst := by
  induction md generalizing regs hmap with
  | nil => simpa [bindLoop] using h
  | cons m rest ih =>
      by_cases hc : c m.method = true
      · simp only [bindLoop, hc, if_true]
        exact ih _ _ (objSet_keys_sub hmap m.event m.method a h)
      · simp only [bindLoop, hc, if_false]
        exact ih _ _ h

-- Every callable metadata record ends with its event among the handler-map
-- keys.
theorem bindLoop_event_key (c : String → Bool) (m : HandlerMeta)
    (hc : c m.method = true) :
    ∀ (md : List HandlerMeta), m ∈ md → ∀ regs hmap : List (String × String),
      m.event ∈ ((bindLoop md c regs hmap).2).map Prod.fst := by
  intro md
  induction md with
  | nil =>
      intro hm
      cases hm
  | cons t rest ih =>
      intro hm regs hmap
      cases hm with
      | head =>
          simp only [bindLoop, hc, if_true]
          exact bindLoop_keys_sub rest c _ _ m.event (objSet_keys_mem hmap m.event m.method)
      | tail _ hmem =>
          by_cases ht : c t.method = true
          · simp only [bindLoop, ht, if_true]
            exact ih hmem _ _
          · simp only [bindLoop, ht, if_false]
            exact ih hmem _ _

/-- **C8.** Constructing a service never fails on its declared handler
metadata: `bindEventEmitters` is total, a metadata record whose method is not
callable on the instance contributes nothing, and the event-bus subscriptions
are exactly the callable records in declaration order; every callable
record's event moreover ends up as a key of the instance's `eventHandlers`
map. -/
theorem claim_C8_missing_handler_skipped (metadata : List HandlerMeta)
    (callable : String → Bool) :
    (bindEventEmitters metadata callable).1 =
      (metadata.filter (fun m => callable m.method)).map (fun m => (m.event, m.method)) ∧
    ∀ m ∈ metadata, callable m.method = true →
      m.event ∈ ((bindEventEmitters metadata callable).2).map Prod.fst := by
  constructor
  · simpa using bindLoop_fst metadata callable [] []
  · intro m hm hc
    exact bindLoop_event_key callable m hc metadata hm [] []

theorem claim_C8_witness :
    (bindEventEmitters [{ method := "onA", event := "evA" },
        { method := "missingMethod", event := "evB" }] (fun s => s == "onA")).1 =
      (([{ method := "onA", event := "evA" },
         { method := "missingMethod", event := "evB" }] : List HandlerMeta).filter
        (fun m => (fun s => s == "onA") m.method)).map (fun m => (m.event, m.method)) ∧
    "evA" ∈ ((bindEventEmitters [{ method := "onA", event := "evA" },
        { method := "missingMethod", event := "evB" }] (fun s => s == "onA")).2).map Prod.fst := by
  have h := claim_C8_missing_handler_skipped
    [{ method := "onA", event := "evA" }, { method := "missingMethod", event := "evB" }]
    (fun s => s == "onA")
  exact ⟨h.1, h.2 { method := "onA", event := "evA" } (by simp) (by decide)⟩

end RPF
